import Mathlib

/-!
Verification of the MCP23S17 / MCP23xxx port-expander driver
(src/sw/include/MCP23S17.h, src/sw/include/MCP23XXX.h).

The C++ driver is a compile-time-configured template class.  We embed it
shallowly: the template parameter pack of `MCP23S17PinConfig` entries becomes
a `List MCP23S17PinConfig`, the per-pin-type `Pin` class template
specializations become functions dispatching on `MCP23xxxPinType`, and the
SPI register transactions become explicit state passing over a simulated
device register file together with an event trace.  Machine integers
(`uint8_t` / `uint16_t`) are embedded as `Nat` with explicit `% 256`
truncation where the C++ narrows a value.
-/

/-- Pin type of MCP23xxx pins (`enum class MCP23xxxPinType` in MCP23XXX.h). -/
inductive MCP23xxxPinType
  | UNUSED          -- Unused pin
  | OUTPUT          -- Generic output pin
  | INPUT           -- Generic input pin
  | INPUT_PU        -- Generic input pin with pull-up enabled
  | SWITCH          -- Push-button switch
  | ROTENC_PHASE_A  -- Rotary encoder phase A generating the interrupt
  | ROTENC_PHASE_B  -- Rotary encoder phase B indicating the direction
  deriving DecidableEq, Repr

/-- One entry of the pin configuration parameter pack
(`MCP23S17PinConfig<t_pinIdx, t_pinType>` in MCP23S17.h).  The pin index
enum `MCP23S17PinIdx` (B0..B7 = 0..7, A0..A7 = 8..15) is embedded as `Nat`. -/
structure MCP23S17PinConfig where
  s_pinIdx : Nat
  s_pinType : MCP23xxxPinType
  deriving DecidableEq, Repr

/-- `s_IODIRBit` of each `MCP23xxx::Pin` specialization (direction-is-input).
The wildcard case is the primary template (UNUSED and anything unspecialized),
whose bits are all false. -/
def s_IODIRBit : MCP23xxxPinType → Bool
  | .OUTPUT => false
  | .INPUT => true
  | .INPUT_PU => true
  | .SWITCH => true
  | .ROTENC_PHASE_A => true
  | .ROTENC_PHASE_B => true
  | _ => false

/-- `s_IPOLBit` of each `MCP23xxx::Pin` specialization (polarity inverted). -/
def s_IPOLBit : MCP23xxxPinType → Bool
  | .SWITCH => true          -- Switch is connected to ground
  | .ROTENC_PHASE_A => true  -- Encoder phase is connected to ground
  | .ROTENC_PHASE_B => true  -- Encoder phase is connected to ground
  | _ => false

/-- `s_GPINTENBit` of each `MCP23xxx::Pin` specialization (interrupt enable). -/
def s_GPINTENBit : MCP23xxxPinType → Bool
  | .SWITCH => true
  | .ROTENC_PHASE_A => true
  | _ => false

/-- `s_DEFVALBit` of each `MCP23xxx::Pin` specialization (default compare
value): false in every specialization. -/
def s_DEFVALBit : MCP23xxxPinType → Bool
  | _ => false

/-- `s_INTCONBit` of each `MCP23xxx::Pin` specialization (interrupt on
compare vs. on change): false in every specialization. -/
def s_INTCONBit : MCP23xxxPinType → Bool
  | _ => false

/-- `s_GPPUBit` of each `MCP23xxx::Pin` specialization (pull-up enable). -/
def s_GPPUBit : MCP23xxxPinType → Bool
  | .INPUT_PU => true
  | .SWITCH => true
  | .ROTENC_PHASE_A => true
  | .ROTENC_PHASE_B => true
  | _ => false

/-- `MCP23S17::PinIdxToPinType`: scan the configuration parameter pack for an
entry with the given pin index; first match wins, a pin with no entry is
UNUSED.  The two C++ partial specializations are the `[c]` (termination) and
`c :: rest` (recursion) cases; the C++ template requires a non-empty pack, so
the `[]` case below is unreachable from any well-formed instantiation and is
given the UNUSED default. -/
def PinIdxToPinType (t_pinIdx : Nat) : List MCP23S17PinConfig → MCP23xxxPinType
  | [] => .UNUSED
  | [c] => if t_pinIdx = c.s_pinIdx then c.s_pinType else .UNUSED
  | c :: rest =>
      if t_pinIdx = c.s_pinIdx then c.s_pinType else PinIdxToPinType t_pinIdx rest

/-- `MCP23S17::checkConfig`: the source body is empty except for a TODO
comment ("Doppelte Benutzung von pins checken"); it performs no check and
never rejects a configuration.  Embedded as the constantly-accepting check. -/
def checkConfig (_cfg : List MCP23S17PinConfig) : Bool :=
  true

/-- The duplicate configuration used to exhibit the missing duplicate check:
pin index 0 (B0) declared twice, once OUTPUT and once SWITCH. -/
def dupConfig : List MCP23S17PinConfig :=
  [⟨0, .OUTPUT⟩, ⟨0, .SWITCH⟩]

/-- C4: the configuration check accepts a set with two entries for the same
pin index, and the resolver silently resolves that index to the first of the
duplicate entries (OUTPUT), instead of rejecting the configuration. -/
theorem checkConfig_accepts_duplicates :
    checkConfig dupConfig = true ∧
    PinIdxToPinType 0 dupConfig = .OUTPUT ∧
    PinIdxToPinType 0 dupConfig ≠ .SWITCH := by
  decide

/-- C5: the pin-type semantics table assigns to SWITCH and ROTENC_PHASE_A
direction-is-input, polarity-inverted, interrupt-enabled and pull-up-enabled
all true, and default-compare-value and interrupt-on-compare false; and to
ROTENC_PHASE_B direction-is-input, polarity-inverted and pull-up-enabled
true with interrupt-enabled false. -/
theorem pin_type_register_bits :
    (s_IODIRBit .SWITCH = true ∧ s_IPOLBit .SWITCH = true ∧
     s_GPINTENBit .SWITCH = true ∧ s_GPPUBit .SWITCH = true ∧
     s_DEFVALBit .SWITCH = false ∧ s_INTCONBit .SWITCH = false) ∧
    (s_IODIRBit .ROTENC_PHASE_A = true ∧ s_IPOLBit .ROTENC_PHASE_A = true ∧
     s_GPINTENBit .ROTENC_PHASE_A = true ∧ s_GPPUBit .ROTENC_PHASE_A = true ∧
     s_DEFVALBit .ROTENC_PHASE_A = false ∧ s_INTCONBit .ROTENC_PHASE_A = false) ∧
    (s_IODIRBit .ROTENC_PHASE_B = true ∧ s_IPOLBit .ROTENC_PHASE_B = true ∧
     s_GPPUBit .ROTENC_PHASE_B = true ∧ s_GPINTENBit .ROTENC_PHASE_B = false) := by
  decide

/-- C7: for every non-empty configuration set and every pin index with no
declared entry, the resolved pin type is UNUSED, and all six derived
register bits of the resolved type are false. -/
theorem unconfigured_pin_unused_all_bits_false
    (cfg : List MCP23S17PinConfig) (i : Nat) (_hne : cfg ≠ [])
    (h : ∀ c ∈ cfg, c.s_pinIdx ≠ i) :
    PinIdxToPinType i cfg = .UNUSED ∧
    s_IODIRBit (PinIdxToPinType i cfg) = false ∧
    s_IPOLBit (PinIdxToPinType i cfg) = false ∧
    s_GPINTENBit (PinIdxToPinType i cfg) = false ∧
    s_DEFVALBit (PinIdxToPinType i cfg) = false ∧
    s_INTCONBit (PinIdxToPinType i cfg) = false ∧
    s_GPPUBit (PinIdxToPinType i cfg) = false := by
  have hmain : PinIdxToPinType i cfg = .UNUSED := by
    clear _hne
    induction cfg with
    | nil => rfl
    | cons c rest ih =>
      have hc : c.s_pinIdx ≠ i := h c (List.mem_cons_self c rest)
      have hrest : ∀ c' ∈ rest, c'.s_pinIdx ≠ i := by
        intro c' hc'
        exact h c' (List.mem_cons_of_mem c hc')
      cases rest with
      | nil =>
        simp only [PinIdxToPinType]
        rw [if_neg (fun he => hc he.symm)]
      | cons c' rest' =>
        simp only [PinIdxToPinType]
        rw [if_neg (fun he => hc he.symm)]
        exact ih hrest
  refine ⟨hmain, ?_, ?_, ?_, ?_, ?_, ?_⟩ <;> rw [hmain] <;> rfl

/-- Witness for C7 at a concrete input: a one-entry configuration for pin B1
leaves pin B0 unconfigured. -/
theorem unconfigured_pin_unused_all_bits_false_witness :
    PinIdxToPinType 0 [⟨1, .SWITCH⟩] = .UNUSED ∧
    s_IODIRBit (PinIdxToPinType 0 [⟨1, .SWITCH⟩]) = false ∧
    s_IPOLBit (PinIdxToPinType 0 [⟨1, .SWITCH⟩]) = false ∧
    s_GPINTENBit (PinIdxToPinType 0 [⟨1, .SWITCH⟩]) = false ∧
    s_DEFVALBit (PinIdxToPinType 0 [⟨1, .SWITCH⟩]) = false ∧
    s_INTCONBit (PinIdxToPinType 0 [⟨1, .SWITCH⟩]) = false ∧
    s_GPPUBit (PinIdxToPinType 0 [⟨1, .SWITCH⟩]) = false :=
  unconfigured_pin_unused_all_bits_false [⟨1, .SWITCH⟩] 0 (by decide) (by decide)

/-! ## Register addresses, opcodes and IOCON bits (MCP23S17.h enums) -/

def IODIRA : Nat := 0x00
def IODIRB : Nat := 0x01
def IPOLA : Nat := 0x02
def IPOLB : Nat := 0x03
def GPINTENA : Nat := 0x04
def GPINTENB : Nat := 0x05
def DEFVALA : Nat := 0x06
def DEFVALB : Nat := 0x07
def INTCONA : Nat := 0x08
def INTCONB : Nat := 0x09
def IOCON : Nat := 0x0A
def GPPUA : Nat := 0x0C
def GPPUB : Nat := 0x0D
def INTFA : Nat := 0x0E
def INTFB : Nat := 0x0F
def INTCAPA : Nat := 0x10
def INTCAPB : Nat := 0x11
def GPIOA : Nat := 0x12
def GPIOB : Nat := 0x13
def OLATA : Nat := 0x14
def OLATB : Nat := 0x15

def OPCODE_WRITE : Nat := 0b01000000
def OPCODE_READ : Nat := 0b01000001

def INTPOL : Nat := 1
def ODR : Nat := 2
def HAEN : Nat := 3
def DISSLW : Nat := 4
def SEQOP : Nat := 5
def MIRROR : Nat := 6
def BANK : Nat := 7

/-! ## Simulated device

The physical MCP23S17 register file lives only on the chip; the claims about
interrupt dispatch, capture and re-arm are claims about the driver code
interacting with it.  `Mcp` models the runtime registers the verified claims
touch (interrupt flag, interrupt capture, live GPIO, output latch, each split
into the port-A and port-B byte).  Modelled from the spec: per the spec's
glossary and section 4.4, reading an interrupt-capture register clears the
pending interrupt condition (re-arms the interrupt) of its port; the
interrupt-flag registers are otherwise only changed by a new hardware
interrupt event. -/
structure Mcp where
  intfA : Nat
  intfB : Nat
  intcapA : Nat
  intcapB : Nat
  gpioA : Nat
  gpioB : Nat
  olatA : Nat
  olatB : Nat
  deriving DecidableEq, Repr

/-- Value returned by the simulated device for a single-register read.
Configuration registers (IODIR.., GPPU..) are written once during `init` and
never read back by the driver, so they are not part of `Mcp`; reading an
unmodelled address returns 0. -/
def regValue (d : Mcp) (addr : Nat) : Nat :=
  if addr = INTFA then d.intfA
  else if addr = INTFB then d.intfB
  else if addr = INTCAPA then d.intcapA
  else if addr = INTCAPB then d.intcapB
  else if addr = GPIOA then d.gpioA
  else if addr = GPIOB then d.gpioB
  else if addr = OLATA then d.olatA
  else if addr = OLATB then d.olatB
  else 0

/-- Hardware side effect of a single-register read.  Modelled from the spec:
reading the interrupt-capture register of a port clears/re-arms that port's
pending interrupt condition (spec glossary, section 4.4 step 4). -/
def readSideEffect (d : Mcp) (addr : Nat) : Mcp :=
  if addr = INTCAPA then { d with intfA := 0 }
  else if addr = INTCAPB then { d with intfB := 0 }
  else d

/-- Effect of a single-register write on the simulated device.  Only the
output latch is both written and observable in the modelled state. -/
def regWriteEffect (d : Mcp) (addr v : Nat) : Mcp :=
  if addr = OLATA then { d with olatA := v }
  else if addr = OLATB then { d with olatB := v }
  else d

/-- Mirrored interrupt output line (IOCON.MIRROR is set by `init`): asserted
while either port has a pending interrupt flag.  Modelled from the spec
(section 4.4 step 2, section 4.6 step 4). -/
def intLine (d : Mcp) : Bool :=
  d.intfA != 0 || d.intfB != 0

/-- One framed SPI register transaction, as recorded in the trace.  Each
event corresponds to one chip-select-framed exchange of the driver
(`readRegister`, `writeRegister`, `readRegisterPair`, `writeRegisterPair`),
plus the two dispatch events of interest: a `Pin<idx>::notify()` invocation
and an invocation of a pin's registered `s_callback`. -/
inductive Ev
  | readReg (addr : Nat)
  | writeReg (addr : Nat) (value : Nat)
  | readRegPair (addr : Nat)
  | writeRegPair (addr : Nat) (value : Nat)
  | notifyCall (pinIdx : Nat)
  | callbackInvoked (pinIdx : Nat) (cb : Nat)
  deriving DecidableEq, Repr

/-- Full machine state threaded through the embedded driver: the simulated
device, the trace of transactions and dispatch events, and the per-pin
static callback slots.  Each interrupt-capable `Pin` instantiation owns one
static `s_callback`; since the instantiations are keyed by the pin index,
the slots form a table indexed by pin index.  Callbacks are identified by an
opaque `Nat` tag (0 = the default-constructed empty callback). -/
structure St where
  dev : Mcp
  trace : List Ev
  cbs : Nat → Nat

/-- Append one event to the trace. -/
def logEvent (e : Ev) (s : St) : St :=
  { s with trace := s.trace ++ [e] }

/-! ## Register transport primitives (MCP23S17.h, private section)

Each C++ primitive is one framed SPI exchange: select, opcode, address, data
byte(s), deselect.  The framed exchange is atomic on the bus, so it is
embedded as one atomic transaction against the simulated device. -/

/-- `MCP23S17::readRegister`: one framed single-byte read transaction. -/
def readRegisterT (addr : Nat) (s : St) : Nat × St :=
  (regValue s.dev addr,
   { s with dev := readSideEffect s.dev addr, trace := s.trace ++ [.readReg addr] })

/-- `MCP23S17::writeRegister`: one framed single-byte write transaction; the
`uint8_t value` parameter truncates the written value to one byte. -/
def writeRegisterT (addr v : Nat) (s : St) : St :=
  { s with dev := regWriteEffect s.dev addr (v % 256),
           trace := s.trace ++ [.writeReg addr (v % 256)] }

/-- `MCP23S17::readRegisterPair`: one framed transaction reading two bytes,
`valueA` (MSB, register `addr`) first, then `valueB` (LSB, the adjacent
register `addr + 1`, which the device's BANK=0 address-pointer toggling
selects); result is `(valueA << 8) + valueB`. -/
def readRegisterPairT (addr : Nat) (s : St) : Nat × St :=
  let valueA := regValue s.dev addr
  let d1 := readSideEffect s.dev addr
  let valueB := regValue d1 (addr + 1)
  ((valueA <<< 8) + valueB,
   { s with dev := readSideEffect d1 (addr + 1), trace := s.trace ++ [.readRegPair addr] })

/-- `MCP23S17::writeRegisterPair`: one framed transaction writing the MSB
(`value >> 8`) to register `addr` and then the LSB to the adjacent register
`addr + 1`; each `SPIMaster::put` takes a `uint8_t`, truncating its byte. -/
def writeRegisterPairT (addr v : Nat) (s : St) : St :=
  { s with dev := regWriteEffect (regWriteEffect s.dev addr ((v >>> 8) % 256)) (addr + 1) (v % 256),
           trace := s.trace ++ [.writeRegPair addr (v % 65536)] }

/-! ## Register-level pin access (`MCP23S17::PinRegisterAccess`)

The class template is specialized on `t_portA = (pinIdx & 0b1000)`; the
port-A specialization uses INTCAPA/GPIOA/OLATA, the port-B one
INTCAPB/GPIOB/OLATB.  The specialization choice is embedded as the
`pinIdx &&& 0b1000 ≠ 0` test. -/

/-- `PinRegisterAccess::getBitmask`: `_BV(pinIdx & 0b111)` (the
`static_assert(pinIdx < 16)` of the source is a hypothesis of the theorems
that need it). -/
def getBitmask (pinIdx : Nat) : Nat :=
  1 <<< (pinIdx &&& 0b111)

/-- `PinRegisterAccess::readINTCAP`: read the pin's own port's interrupt
capture register and mask out the pin's bit (C++ converts the masked byte to
`bool`: true iff non-zero). -/
def readINTCAP (pinIdx : Nat) (s : St) : Bool × St :=
  if pinIdx &&& 0b1000 ≠ 0 then
    let r := readRegisterT INTCAPA s
    (r.1 &&& getBitmask pinIdx != 0, r.2)
  else
    let r := readRegisterT INTCAPB s
    (r.1 &&& getBitmask pinIdx != 0, r.2)

/-- `PinRegisterAccess<..,true>::writeOLATA` / `PinRegisterAccess<..,false>::writeOLAT`:
read-modify-write of the pin's own port's output latch register (note the
port-A source names this method `writeOLATA`, the port-B source `writeOLAT`).
`~getBitmask()` on a `uint8_t` operand written back through a `uint8_t`
parameter is the 8-bit complement `255 ^^^ getBitmask pinIdx`. -/
def writeOLAT (pinIdx : Nat) (bValue : Bool) (s : St) : St :=
  if pinIdx &&& 0b1000 ≠ 0 then
    if bValue then
      let r := readRegisterT OLATA s
      writeRegisterT OLATA (r.1 ||| getBitmask pinIdx) r.2
    else
      let r := readRegisterT OLATA s
      writeRegisterT OLATA (r.1 &&& (255 ^^^ getBitmask pinIdx)) r.2
  else
    if bValue then
      let r := readRegisterT OLATB s
      writeRegisterT OLATB (r.1 ||| getBitmask pinIdx) r.2
    else
      let r := readRegisterT OLATB s
      writeRegisterT OLATB (r.1 &&& (255 ^^^ getBitmask pinIdx)) r.2

/-! ## Logical pin layer (`MCP23xxx::Pin` specializations, MCP23XXX.h) -/

/-- Record the invocation of pin `pinIdx`'s stored `s_callback` (its current
slot content, which may be the default empty callback 0). -/
def invokeCallback (pinIdx : Nat) (s : St) : St :=
  logEvent (.callbackInvoked pinIdx (s.cbs pinIdx)) s

/-- `MCP23xxx::Pin<..>::notify()`, dispatching on the pin type exactly as the
class template specializations do: the SWITCH and ROTENC_PHASE_A
specializations read the captured bit via `PinOnDevice::readINTCAP()` and
invoke `s_callback()` if it is set; every other specialization's `notify` is
a dummy with an empty body. -/
def Pin.notify (t : MCP23xxxPinType) (pinIdx : Nat) (s : St) : St :=
  match t with
  | .SWITCH =>
      let r := readINTCAP pinIdx s
      if r.1 then invokeCallback pinIdx r.2 else r.2
  | .ROTENC_PHASE_A =>
      let r := readINTCAP pinIdx s
      if r.1 then invokeCallback pinIdx r.2 else r.2
  | _ => s

/-- `Pin<.., SWITCH>::registerCallback` / `Pin<.., ROTENC_PHASE_A>::registerCallback`:
replace the stored static `s_callback` of this pin's instantiation (the two
specializations have the identical body `s_callback = callback`). -/
def Pin.registerCallback (pinIdx cb : Nat) (s : St) : St :=
  { s with cbs := fun j => if j = pinIdx then cb else s.cbs j }

/-- `Pin<.., ROTENC_PHASE_B>::read()`: returns `PinOnDevice::readINTCAP()`,
the logical state captured by the last interrupt, not the live state. -/
def Pin.rotencBRead (pinIdx : Nat) (s : St) : Bool × St :=
  readINTCAP pinIdx s

/-! ## Interrupt dispatch (`MCP23S17::onInterrupt`, `reArmInterrupt`) -/

/-- The fixed order of the sixteen `if (INTF & _BV(idx)) Pin<idx>::notify();`
blocks in `onInterrupt`: B0..B7 (bits 0..7) then A0..A7 (bits 8..15). -/
def dispatchOrder : List Nat :=
  [0, 1, 2, 3, 4, 5, 6, 7, 8, 9, 10, 11, 12, 13, 14, 15]

/-- One `if (INTF & _BV(idx)) { Pin<idx>::notify(); }` block of
`onInterrupt`, with the `notify` invocation recorded in the trace; the pin
type of `Pin<idx>` is resolved by `PinIdxToPinType` from the configuration
pack. -/
def dispatchStep (cfg : List MCP23S17PinConfig) (INTF : Nat) (s : St) (pinIdx : Nat) : St :=
  if INTF &&& (1 <<< pinIdx) != 0 then
    Pin.notify (PinIdxToPinType pinIdx cfg) pinIdx (logEvent (.notifyCall pinIdx) s)
  else s

/-- `MCP23S17::onInterrupt`: read the interrupt-flag register pair once, then
run the sixteen dispatch blocks in the fixed order B0..B7, A0..A7. -/
def onInterrupt (cfg : List MCP23S17PinConfig) (s : St) : St :=
  let r := readRegisterPairT INTFA s
  dispatchOrder.foldl (dispatchStep cfg r.1) r.2

/-- `MCP23S17::reArmInterrupt`: reading the INTCAP register pair re-arms the
interrupt (the read value is discarded). -/
def reArmInterrupt (s : St) : St :=
  (readRegisterPairT INTCAPA s).2

/-! ## Environment transitions (hardware events, modelled from the spec)

Modelled from the spec (section 3 "Captured value", glossary): a hardware
interrupt event latches each pin's current logical level into the capture
registers and sets the interrupt flags; the live levels may change freely
afterwards without affecting the captured values. -/

/-- Environment: the live (polarity-corrected) input levels change. -/
def setLiveLevels (a b : Nat) (s : St) : St :=
  { s with dev := { s.dev with gpioA := a % 256, gpioB := b % 256 } }

/-- Environment: a hardware interrupt event with flag bytes `fA`/`fB` latches
the current live levels into the capture registers. -/
def interruptEvent (fA fB : Nat) (s : St) : St :=
  { s with dev := { s.dev with
      intcapA := s.dev.gpioA, intcapB := s.dev.gpioB,
      intfA := fA % 256, intfB := fB % 256 } }

/-! ## Trace projections used by the claims -/

/-- The pin indices of the `notify()` invocations in a trace, in order. -/
def notifyCallsOf (tr : List Ev) : List Nat :=
  tr.filterMap fun e =>
    match e with
    | .notifyCall i => some i
    | _ => none

/-- The addresses of the single-register reads of an interrupt-capture
register in a trace, in order. -/
def captureSingleReads (tr : List Ev) : List Nat :=
  tr.filterMap fun e =>
    match e with
    | .readReg a => if a = INTCAPA ∨ a = INTCAPB then some a else none
    | _ => none

/-- The number of register-pair reads based at the interrupt-capture pair in
a trace. -/
def capturePairReads (tr : List Ev) : Nat :=
  (tr.filter fun e =>
    match e with
    | .readRegPair a => a = INTCAPA
    | _ => false).length

/-- The 16-bit interrupt-flag word `onInterrupt` reads at its start, as the
device returns it: port A (MSB) first, port B (LSB) second. -/
def intfWord (s : St) : Nat :=
  (s.dev.intfA <<< 8) + s.dev.intfB

/-- The capture register a pin's `readINTCAP` reads: INTCAPA for port-A pins
(index bit 3 set), INTCAPB for port-B pins. -/
def capAddr (pinIdx : Nat) : Nat :=
  if pinIdx &&& 0b1000 ≠ 0 then INTCAPA else INTCAPB

/-- The pin types whose `notify()` specialization reads the capture register
and can invoke the registered callback (SWITCH and ROTENC_PHASE_A); all
other specializations have a dummy `notify`. -/
def isSwitchOrPhaseA : MCP23xxxPinType → Bool
  | .SWITCH => true
  | .ROTENC_PHASE_A => true
  | _ => false

/-! ## Structural lemmas about the embedded driver -/

/-- The events `notify` appends to the trace, as a function of the pin type,
the pin index, the device state and the pin's current callback slot. -/
def notifyEvents (t : MCP23xxxPinType) (pinIdx : Nat) (d : Mcp) (cb : Nat) : List Ev :=
  if isSwitchOrPhaseA t then
    if regValue d (capAddr pinIdx) &&& getBitmask pinIdx != 0 then
      [.readReg (capAddr pinIdx), .callbackInvoked pinIdx cb]
    else
      [.readReg (capAddr pinIdx)]
  else []

lemma readINTCAP_eq (pinIdx : Nat) (s : St) :
    readINTCAP pinIdx s =
      (regValue s.dev (capAddr pinIdx) &&& getBitmask pinIdx != 0,
       { s with dev := readSideEffect s.dev (capAddr pinIdx),
                trace := s.trace ++ [.readReg (capAddr pinIdx)] }) := by
  unfold readINTCAP capAddr readRegisterT
  split <;> rfl

lemma notify_trace_eq (t : MCP23xxxPinType) (pinIdx : Nat) (s : St) :
    (Pin.notify t pinIdx s).trace = s.trace ++ notifyEvents t pinIdx s.dev (s.cbs pinIdx) := by
  cases t <;>
    simp only [Pin.notify, notifyEvents, isSwitchOrPhaseA, readINTCAP_eq, invokeCallback,
      logEvent, if_true, if_false] <;>
    (try split) <;> simp_all

lemma notify_dev_eq (t : MCP23xxxPinType) (pinIdx : Nat) (s : St) :
    (Pin.notify t pinIdx s).dev =
      if isSwitchOrPhaseA t then readSideEffect s.dev (capAddr pinIdx) else s.dev := by
  cases t <;>
    simp only [Pin.notify, isSwitchOrPhaseA, readINTCAP_eq, invokeCallback, logEvent,
      if_true, if_false] <;>
    (try split) <;> simp_all

lemma notify_cbs_eq (t : MCP23xxxPinType) (pinIdx : Nat) (s : St) :
    (Pin.notify t pinIdx s).cbs = s.cbs := by
  cases t <;>
    simp only [Pin.notify, isSwitchOrPhaseA, readINTCAP_eq, invokeCallback, logEvent] <;>
    (try split) <;> simp_all

lemma notifyCallsOf_append (a b : List Ev) :
    notifyCallsOf (a ++ b) = notifyCallsOf a ++ notifyCallsOf b := by
  unfold notifyCallsOf
  exact List.filterMap_append a b _

lemma captureSingleReads_append (a b : List Ev) :
    captureSingleReads (a ++ b) = captureSingleReads a ++ captureSingleReads b := by
  unfold captureSingleReads
  exact List.filterMap_append a b _

lemma capturePairReads_append (a b : List Ev) :
    capturePairReads (a ++ b) = capturePairReads a + capturePairReads b := by
  unfold capturePairReads
  rw [List.filter_append, List.length_append]

lemma notifyCallsOf_notifyEvents (t : MCP23xxxPinType) (pinIdx : Nat) (d : Mcp) (cb : Nat) :
    notifyCallsOf (notifyEvents t pinIdx d cb) = [] := by
  unfold notifyEvents
  (try split) <;> (try split) <;> rfl

lemma captureSingleReads_readReg_capAddr (pinIdx : Nat) (rest : List Ev) :
    captureSingleReads (.readReg (capAddr pinIdx) :: rest) =
      capAddr pinIdx :: captureSingleReads rest := by
  unfold captureSingleReads capAddr
  split <;> simp

lemma captureSingleReads_notifyEvents (t : MCP23xxxPinType) (pinIdx : Nat) (d : Mcp) (cb : Nat) :
    captureSingleReads (notifyEvents t pinIdx d cb) =
      if isSwitchOrPhaseA t then [capAddr pinIdx] else [] := by
  unfold notifyEvents
  split
  · split <;> rw [captureSingleReads_readReg_capAddr] <;> rfl
  · rfl

lemma capturePairReads_notifyEvents (t : MCP23xxxPinType) (pinIdx : Nat) (d : Mcp) (cb : Nat) :
    capturePairReads (notifyEvents t pinIdx d cb) = 0 := by
  unfold notifyEvents capturePairReads
  (try split) <;> (try split) <;> rfl

lemma dispatchStep_notifyCalls (cfg : List MCP23S17PinConfig) (w : Nat) (s : St) (i : Nat) :
    notifyCallsOf (dispatchStep cfg w s i).trace =
      notifyCallsOf s.trace ++ (if w &&& (1 <<< i) != 0 then [i] else []) := by
  unfold dispatchStep
  split
  · rename_i hbit
    rw [notify_trace_eq]
    simp only [logEvent]
    rw [notifyCallsOf_append, notifyCallsOf_append, notifyCallsOf_notifyEvents]
    simp [notifyCallsOf]
  · rename_i hbit
    simp only [Bool.not_eq_true] at hbit
    simp [hbit]

lemma dispatchStep_captureReads (cfg : List MCP23S17PinConfig) (w : Nat) (s : St) (i : Nat) :
    captureSingleReads (dispatchStep cfg w s i).trace =
      captureSingleReads s.trace ++
        (if (w &&& (1 <<< i) != 0) && isSwitchOrPhaseA (PinIdxToPinType i cfg)
         then [capAddr i] else []) := by
  unfold dispatchStep
  split
  · rename_i hbit
    rw [notify_trace_eq]
    simp only [logEvent]
    rw [captureSingleReads_append, captureSingleReads_append, captureSingleReads_notifyEvents, hbit]
    simp [captureSingleReads]
  · rename_i hbit
    simp only [Bool.not_eq_true] at hbit
    simp [hbit]

lemma dispatchStep_capturePairReads (cfg : List MCP23S17PinConfig) (w : Nat) (s : St) (i : Nat) :
    capturePairReads (dispatchStep cfg w s i).trace = capturePairReads s.trace := by
  unfold dispatchStep
  split
  · rw [notify_trace_eq]
    simp only [logEvent]
    rw [capturePairReads_append, capturePairReads_append, capturePairReads_notifyEvents]
    simp [capturePairReads]
  · rfl

lemma foldl_dispatch_notifyCalls (cfg : List MCP23S17PinConfig) (w : Nat)
    (l : List Nat) (s : St) :
    notifyCallsOf (l.foldl (dispatchStep cfg w) s).trace =
      notifyCallsOf s.trace ++ l.filter (fun i => w &&& (1 <<< i) != 0) := by
  induction l generalizing s with
  | nil => simp
  | cons a t ih =>
    rw [List.foldl_cons, ih, dispatchStep_notifyCalls, List.filter_cons]
    split <;> simp

lemma foldl_dispatch_captureReads (cfg : List MCP23S17PinConfig) (w : Nat)
    (l : List Nat) (s : St) :
    captureSingleReads (l.foldl (dispatchStep cfg w) s).trace =
      captureSingleReads s.trace ++
        (l.filter (fun i => (w &&& (1 <<< i) != 0) &&
            isSwitchOrPhaseA (PinIdxToPinType i cfg))).map capAddr := by
  induction l generalizing s with
  | nil => simp
  | cons a t ih =>
    rw [List.foldl_cons, ih, dispatchStep_captureReads, List.filter_cons]
    split <;> simp

lemma foldl_dispatch_capturePairReads (cfg : List MCP23S17PinConfig) (w : Nat)
    (l : List Nat) (s : St) :
    capturePairReads (l.foldl (dispatchStep cfg w) s).trace = capturePairReads s.trace := by
  induction l generalizing s with
  | nil => rfl
  | cons a t ih => rw [List.foldl_cons, ih, dispatchStep_capturePairReads]

lemma readSideEffect_capAddr_intfA (d : Mcp) (i : Nat) :
    (readSideEffect d (capAddr i)).intfA = if i &&& 0b1000 ≠ 0 then 0 else d.intfA := by
  unfold readSideEffect capAddr
  split <;> simp [INTCAPA, INTCAPB]

lemma readSideEffect_capAddr_intfB (d : Mcp) (i : Nat) :
    (readSideEffect d (capAddr i)).intfB = if i &&& 0b1000 ≠ 0 then d.intfB else 0 := by
  unfold readSideEffect capAddr
  split <;> simp [INTCAPA, INTCAPB]

lemma dispatchStep_intfA (cfg : List MCP23S17PinConfig) (w : Nat) (s : St) (i : Nat) :
    (dispatchStep cfg w s i).dev.intfA = s.dev.intfA ∨
      (dispatchStep cfg w s i).dev.intfA = 0 := by
  unfold dispatchStep
  split
  · rw [notify_dev_eq]
    simp only [logEvent]
    split
    · rw [readSideEffect_capAddr_intfA]
      split
      · right; rfl
      · left; rfl
    · left; rfl
  · left; rfl

lemma dispatchStep_intfB (cfg : List MCP23S17PinConfig) (w : Nat) (s : St) (i : Nat) :
    (dispatchStep cfg w s i).dev.intfB = s.dev.intfB ∨
      (dispatchStep cfg w s i).dev.intfB = 0 := by
  unfold dispatchStep
  split
  · rw [notify_dev_eq]
    simp only [logEvent]
    split
    · rw [readSideEffect_capAddr_intfB]
      split
      · left; rfl
      · right; rfl
    · left; rfl
  · left; rfl

lemma dispatchStep_intfA_zero (cfg : List MCP23S17PinConfig) (w : Nat) (s : St) (i : Nat)
    (hbit : (w &&& (1 <<< i) != 0) = true)
    (ht : isSwitchOrPhaseA (PinIdxToPinType i cfg) = true)
    (hport : i &&& 0b1000 ≠ 0) :
    (dispatchStep cfg w s i).dev.intfA = 0 := by
  unfold dispatchStep
  rw [if_pos hbit, notify_dev_eq]
  simp only [logEvent, ht, if_true]
  rw [readSideEffect_capAddr_intfA, if_pos hport]

lemma dispatchStep_intfB_zero (cfg : List MCP23S17PinConfig) (w : Nat) (s : St) (i : Nat)
    (hbit : (w &&& (1 <<< i) != 0) = true)
    (ht : isSwitchOrPhaseA (PinIdxToPinType i cfg) = true)
    (hport : ¬ i &&& 0b1000 ≠ 0) :
    (dispatchStep cfg w s i).dev.intfB = 0 := by
  unfold dispatchStep
  rw [if_pos hbit, notify_dev_eq]
  simp only [logEvent, ht, if_true]
  rw [readSideEffect_capAddr_intfB, if_neg hport]

lemma foldl_dispatch_intfA_zero (cfg : List MCP23S17PinConfig) (w : Nat)
    (l : List Nat) (s : St) (h : s.dev.intfA = 0) :
    (l.foldl (dispatchStep cfg w) s).dev.intfA = 0 := by
  induction l generalizing s with
  | nil => exact h
  | cons a t ih =>
    rw [List.foldl_cons]
    apply ih
    rcases dispatchStep_intfA cfg w s a with h1 | h1
    · rw [h1, h]
    · exact h1

lemma foldl_dispatch_intfB_zero (cfg : List MCP23S17PinConfig) (w : Nat)
    (l : List Nat) (s : St) (h : s.dev.intfB = 0) :
    (l.foldl (dispatchStep cfg w) s).dev.intfB = 0 := by
  induction l generalizing s with
  | nil => exact h
  | cons a t ih =>
    rw [List.foldl_cons]
    apply ih
    rcases dispatchStep_intfB cfg w s a with h1 | h1
    · rw [h1, h]
    · exact h1

lemma foldl_dispatch_intfA_hit (cfg : List MCP23S17PinConfig) (w : Nat)
    (l : List Nat) (s : St)
    (h : ∃ i ∈ l, (w &&& (1 <<< i) != 0) = true ∧
        isSwitchOrPhaseA (PinIdxToPinType i cfg) = true ∧ i &&& 0b1000 ≠ 0) :
    (l.foldl (dispatchStep cfg w) s).dev.intfA = 0 := by
  induction l generalizing s with
  | nil => simp at h
  | cons a t ih =>
    obtain ⟨i, hmem, h1, h2, h3⟩ := h
    rw [List.foldl_cons]
    rcases List.mem_cons.mp hmem with he | htl
    · subst he
      exact foldl_dispatch_intfA_zero cfg w t _ (dispatchStep_intfA_zero cfg w s i h1 h2 h3)
    · exact ih _ ⟨i, htl, h1, h2, h3⟩

lemma foldl_dispatch_intfB_hit (cfg : List MCP23S17PinConfig) (w : Nat)
    (l : List Nat) (s : St)
    (h : ∃ i ∈ l, (w &&& (1 <<< i) != 0) = true ∧
        isSwitchOrPhaseA (PinIdxToPinType i cfg) = true ∧ ¬ i &&& 0b1000 ≠ 0) :
    (l.foldl (dispatchStep cfg w) s).dev.intfB = 0 := by
  induction l generalizing s with
  | nil => simp at h
  | cons a t ih =>
    obtain ⟨i, hmem, h1, h2, h3⟩ := h
    rw [List.foldl_cons]
    rcases List.mem_cons.mp hmem with he | htl
    · subst he
      exact foldl_dispatch_intfB_zero cfg w t _ (dispatchStep_intfB_zero cfg w s i h1 h2 h3)
    · exact ih _ ⟨i, htl, h1, h2, h3⟩

/-! ## Arithmetic bridges between the C++ bit tests and `Nat.testBit` -/

lemma and_one_shiftLeft_ne_zero (w i : Nat) :
    (w &&& (1 <<< i) != 0) = w.testBit i := by
  rw [Nat.one_shiftLeft, Nat.and_two_pow]
  cases h : w.testBit i <;> simp [h, Nat.pos_iff_ne_zero, Nat.pos_pow_of_pos]

lemma intfWord_testBit (a b j : Nat) (hb : b < 256) :
    ((a <<< 8) + b).testBit j = if j < 8 then b.testBit j else a.testBit (j - 8) := by
  rw [Nat.shiftLeft_eq, Nat.mul_comm]
  exact Nat.testBit_mul_pow_two_add a (by norm_num [hb]) j

lemma readRegisterPairT_INTFA (s : St) :
    readRegisterPairT INTFA s = (intfWord s, logEvent (.readRegPair INTFA) s) := by
  unfold readRegisterPairT intfWord logEvent regValue readSideEffect
  norm_num [INTFA, INTFB, INTCAPA, INTCAPB, GPIOA, GPIOB, OLATA, OLATB]

lemma onInterrupt_eq (cfg : List MCP23S17PinConfig) (s : St) :
    onInterrupt cfg s =
      dispatchOrder.foldl (dispatchStep cfg (intfWord s)) (logEvent (.readRegPair INTFA) s) := by
  unfold onInterrupt
  rw [readRegisterPairT_INTFA]

lemma dispatchOrder_eq_range : dispatchOrder = List.range 16 := by
  decide

/-! ## Claim theorems about the interrupt dispatch -/

/-- C3: for every configuration and every device state, a single
`onInterrupt` call invokes `notify()` exactly once for each set bit of the
16-bit interrupt-flag word it reads, in the fixed pin-index order
B0..B7 (bits 0..7) then A0..A7 (bits 8..15): the recorded `notify`
invocations are exactly the set bit positions of the flag word, listed in
strictly increasing order, and each set bit is dispatched exactly once
while no unset bit is dispatched at all. -/
theorem onInterrupt_dispatch_order (cfg : List MCP23S17PinConfig) (s : St)
    (h0 : s.trace = []) :
    notifyCallsOf (onInterrupt cfg s).trace
        = (List.range 16).filter (fun i => (intfWord s).testBit i) ∧
    List.Pairwise (fun a b => a < b) (notifyCallsOf (onInterrupt cfg s).trace) ∧
    ∀ i, i < 16 → List.count i (notifyCallsOf (onInterrupt cfg s).trace)
        = if (intfWord s).testBit i then 1 else 0 := by
  have hmain : notifyCallsOf (onInterrupt cfg s).trace
      = (List.range 16).filter (fun i => (intfWord s).testBit i) := by
    rw [onInterrupt_eq, foldl_dispatch_notifyCalls]
    have h1 : notifyCallsOf (logEvent (.readRegPair INTFA) s).trace = [] := by
      simp [logEvent, h0, notifyCallsOf]
    rw [h1, List.nil_append, dispatchOrder_eq_range]
    exact List.filter_congr (fun i _ => and_one_shiftLeft_ne_zero (intfWord s) i)
  refine ⟨hmain, ?_, ?_⟩
  · rw [hmain]
    exact List.Pairwise.sublist (List.filter_sublist _) (List.pairwise_lt_range 16)
  · intro i hi
    rw [hmain]
    by_cases h : (intfWord s).testBit i
    · rw [if_pos h]
      refine List.count_eq_one_of_mem (List.Nodup.filter _ (List.nodup_range 16)) ?_
      exact List.mem_filter.mpr ⟨List.mem_range.mpr hi, by simp [h]⟩
    · rw [if_neg h]
      refine List.count_eq_zero.mpr ?_
      intro hmem
      exact h (by simpa using (List.mem_filter.mp hmem).2)

/-- Witness for C3 at a concrete input: one SWITCH pin on B0, flag word
0x0201 (bits 0 and 9 set). -/
theorem onInterrupt_dispatch_order_witness :
    notifyCallsOf (onInterrupt [⟨0, .SWITCH⟩] ⟨⟨2, 1, 0, 0, 0, 0, 0, 0⟩, [], fun _ => 0⟩).trace
        = (List.range 16).filter
            (fun i => (intfWord ⟨⟨2, 1, 0, 0, 0, 0, 0, 0⟩, [], fun _ => 0⟩).testBit i) ∧
    List.Pairwise (fun a b => a < b)
        (notifyCallsOf (onInterrupt [⟨0, .SWITCH⟩] ⟨⟨2, 1, 0, 0, 0, 0, 0, 0⟩, [], fun _ => 0⟩).trace) ∧
    ∀ i, i < 16 →
      List.count i (notifyCallsOf (onInterrupt [⟨0, .SWITCH⟩] ⟨⟨2, 1, 0, 0, 0, 0, 0, 0⟩, [], fun _ => 0⟩).trace)
        = if (intfWord ⟨⟨2, 1, 0, 0, 0, 0, 0, 0⟩, [], fun _ => 0⟩).testBit i then 1 else 0 :=
  onInterrupt_dispatch_order [⟨0, .SWITCH⟩] ⟨⟨2, 1, 0, 0, 0, 0, 0, 0⟩, [], fun _ => 0⟩ rfl

/-- C1 counterexample: with pins B0 and B1 configured SWITCH and both flag
bits set, the dispatch of a single `onInterrupt` call performs zero reads of
the interrupt-capture register *pair* (so the pair is not "fetched once per
dispatch cycle") and instead two separate single-register capture reads, one
issued by each flagged pin's `notify()`. -/
theorem onInterrupt_capture_not_fetched_once_counterexample :
    capturePairReads
        (onInterrupt [⟨0, .SWITCH⟩, ⟨1, .SWITCH⟩] ⟨⟨0, 3, 0, 0, 0, 0, 0, 0⟩, [], fun _ => 0⟩).trace
      = 0 ∧
    captureSingleReads
        (onInterrupt [⟨0, .SWITCH⟩, ⟨1, .SWITCH⟩] ⟨⟨0, 3, 0, 0, 0, 0, 0, 0⟩, [], fun _ => 0⟩).trace
      = [INTCAPB, INTCAPB] := by
  decide

/-- C1 as amended: during one `onInterrupt` call the interrupt-capture
registers are never fetched as a register pair; instead each flagged pin of
type SWITCH or ROTENC_PHASE_A issues its own fresh single-register read of
its port's interrupt-capture register (INTCAPA for A-port pins, INTCAPB for
B-port pins), one read per such pin in dispatch order, and flagged pins of
any other type issue no capture read. -/
theorem onInterrupt_capture_reads_per_flagged_pin (cfg : List MCP23S17PinConfig)
    (s : St) (h0 : s.trace = []) :
    captureSingleReads (onInterrupt cfg s).trace
        = ((List.range 16).filter (fun i =>
              (intfWord s).testBit i && isSwitchOrPhaseA (PinIdxToPinType i cfg))).map capAddr ∧
    capturePairReads (onInterrupt cfg s).trace = 0 := by
  constructor
  · rw [onInterrupt_eq, foldl_dispatch_captureReads]
    have h1 : captureSingleReads (logEvent (.readRegPair INTFA) s).trace = [] := by
      simp [logEvent, h0, captureSingleReads]
    rw [h1, List.nil_append, dispatchOrder_eq_range]
    congr 1
    exact List.filter_congr (fun i _ => by rw [and_one_shiftLeft_ne_zero])
  · rw [onInterrupt_eq, foldl_dispatch_capturePairReads]
    simp [logEvent, h0, capturePairReads, INTFA, INTCAPA]

/-- Witness for the amended C1 at a concrete input: pins B0, B1 SWITCH and
both flag bits set. -/
theorem onInterrupt_capture_reads_per_flagged_pin_witness :
    captureSingleReads
        (onInterrupt [⟨0, .SWITCH⟩, ⟨1, .SWITCH⟩] ⟨⟨0, 3, 1, 2, 0, 0, 0, 0⟩, [], fun _ => 0⟩).trace
        = ((List.range 16).filter (fun i =>
              (intfWord ⟨⟨0, 3, 1, 2, 0, 0, 0, 0⟩, [], fun _ => 0⟩).testBit i &&
              isSwitchOrPhaseA (PinIdxToPinType i [⟨0, .SWITCH⟩, ⟨1, .SWITCH⟩]))).map capAddr ∧
    capturePairReads
        (onInterrupt [⟨0, .SWITCH⟩, ⟨1, .SWITCH⟩] ⟨⟨0, 3, 1, 2, 0, 0, 0, 0⟩, [], fun _ => 0⟩).trace = 0 :=
  onInterrupt_capture_reads_per_flagged_pin [⟨0, .SWITCH⟩, ⟨1, .SWITCH⟩]
    ⟨⟨0, 3, 1, 2, 0, 0, 0, 0⟩, [], fun _ => 0⟩ rfl

/-- C2 counterexample: with only pin B0 configured (SWITCH) and the flag word
read as 0b10 (bit 1 set, a pin with no SWITCH/ROTENC_PHASE_A entry),
`onInterrupt` returns without performing any capture-register read (neither a
single-register nor a pair read), a subsequent read of the interrupt-flag
register pair still returns 2 instead of zero, and the interrupt line is
still asserted. -/
theorem onInterrupt_no_rearm_counterexample :
    captureSingleReads
        (onInterrupt [⟨0, .SWITCH⟩] ⟨⟨0, 2, 0, 0, 0, 0, 0, 0⟩, [], fun _ => 0⟩).trace = [] ∧
    capturePairReads
        (onInterrupt [⟨0, .SWITCH⟩] ⟨⟨0, 2, 0, 0, 0, 0, 0, 0⟩, [], fun _ => 0⟩).trace = 0 ∧
    (readRegisterPairT INTFA
        (onInterrupt [⟨0, .SWITCH⟩] ⟨⟨0, 2, 0, 0, 0, 0, 0, 0⟩, [], fun _ => 0⟩)).1 = 2 ∧
    intLine (onInterrupt [⟨0, .SWITCH⟩] ⟨⟨0, 2, 0, 0, 0, 0, 0, 0⟩, [], fun _ => 0⟩).dev = true := by
  decide

/-- C2 as amended: after an `onInterrupt` call in which every set bit of the
interrupt-flag word belongs to a pin of type SWITCH or ROTENC_PHASE_A, the
interrupt has been re-armed: a subsequent read of the interrupt-flag
register pair (with no new hardware transition) returns zero, the interrupt
line is deasserted, and (when at least one flag was set) at least one
capture-register read was performed during the call. -/
theorem onInterrupt_rearm_when_flags_notified (cfg : List MCP23S17PinConfig) (s : St)
    (hA : s.dev.intfA < 256) (hB : s.dev.intfB < 256) (h0 : s.trace = [])
    (h : ∀ i, i < 16 → (intfWord s).testBit i = true →
        isSwitchOrPhaseA (PinIdxToPinType i cfg) = true) :
    (readRegisterPairT INTFA (onInterrupt cfg s)).1 = 0 ∧
    intLine (onInterrupt cfg s).dev = false ∧
    (intfWord s ≠ 0 → captureSingleReads (onInterrupt cfg s).trace ≠ []) := by
  have hAfin : (onInterrupt cfg s).dev.intfA = 0 := by
    rw [onInterrupt_eq]
    by_cases hz : s.dev.intfA = 0
    · exact foldl_dispatch_intfA_zero _ _ _ _ (by simp [logEvent, hz])
    · obtain ⟨j, hbit⟩ := Nat.ne_zero_implies_bit_true hz
      have hj : j < 8 := by
        by_contra hge
        push_neg at hge
        have hlt : s.dev.intfA < 2 ^ j :=
          lt_of_lt_of_le hA (le_trans (by norm_num) (Nat.pow_le_pow_right (by norm_num) hge))
        rw [Nat.testBit_lt_two_pow hlt] at hbit
        exact Bool.false_ne_true hbit
      have hw : (intfWord s).testBit (8 + j) = true := by
        unfold intfWord
        rw [intfWord_testBit _ _ _ hB, if_neg (by omega), Nat.add_sub_cancel_left]
        exact hbit
      apply foldl_dispatch_intfA_hit
      refine ⟨8 + j, ?_, ?_, ?_, ?_⟩
      · rw [dispatchOrder_eq_range]
        exact List.mem_range.mpr (by omega)
      · rw [and_one_shiftLeft_ne_zero]
        exact hw
      · exact h (8 + j) (by omega) hw
      · interval_cases j <;> decide
  have hBfin : (onInterrupt cfg s).dev.intfB = 0 := by
    rw [onInterrupt_eq]
    by_cases hz : s.dev.intfB = 0
    · exact foldl_dispatch_intfB_zero _ _ _ _ (by simp [logEvent, hz])
    · obtain ⟨j, hbit⟩ := Nat.ne_zero_implies_bit_true hz
      have hj : j < 8 := by
        by_contra hge
        push_neg at hge
        have hlt : s.dev.intfB < 2 ^ j :=
          lt_of_lt_of_le hB (le_trans (by norm_num) (Nat.pow_le_pow_right (by norm_num) hge))
        rw [Nat.testBit_lt_two_pow hlt] at hbit
        exact Bool.false_ne_true hbit
      have hw : (intfWord s).testBit j = true := by
        unfold intfWord
        rw [intfWord_testBit _ _ _ hB, if_pos hj]
        exact hbit
      apply foldl_dispatch_intfB_hit
      refine ⟨j, ?_, ?_, ?_, ?_⟩
      · rw [dispatchOrder_eq_range]
        exact List.mem_range.mpr (by omega)
      · rw [and_one_shiftLeft_ne_zero]
        exact hw
      · exact h j (by omega) hw
      · interval_cases j <;> decide
  refine ⟨?_, ?_, ?_⟩
  · rw [readRegisterPairT_INTFA]
    show intfWord (onInterrupt cfg s) = 0
    unfold intfWord
    rw [hAfin, hBfin]
    rfl
  · unfold intLine
    rw [hAfin, hBfin]
    rfl
  · intro hne
    rw [onInterrupt_eq, foldl_dispatch_captureReads]
    have h1 : captureSingleReads (logEvent (.readRegPair INTFA) s).trace = [] := by
      simp [logEvent, h0, captureSingleReads]
    rw [h1, List.nil_append]
    obtain ⟨k, hkbit⟩ := Nat.ne_zero_implies_bit_true hne
    have hk16 : k < 16 := by
      by_contra hge
      push_neg at hge
      have hw16 : intfWord s < 2 ^ 16 := by
        unfold intfWord
        rw [Nat.shiftLeft_eq]
        omega
      have hlt : intfWord s < 2 ^ k :=
        lt_of_lt_of_le hw16 (Nat.pow_le_pow_right (by norm_num) hge)
      rw [Nat.testBit_lt_two_pow hlt] at hkbit
      exact Bool.false_ne_true hkbit
    have hmem : k ∈ dispatchOrder.filter (fun i =>
        (intfWord s &&& (1 <<< i) != 0) && isSwitchOrPhaseA (PinIdxToPinType i cfg)) := by
      refine List.mem_filter.mpr ⟨?_, ?_⟩
      · rw [dispatchOrder_eq_range]
        exact List.mem_range.mpr hk16
      · rw [and_one_shiftLeft_ne_zero]
        simp [hkbit, h k hk16 hkbit]
    intro hnil
    rw [List.map_eq_nil_iff] at hnil
    rw [hnil] at hmem
    exact List.not_mem_nil _ hmem

/-- Witness for the amended C2 at a concrete input: pin B0 SWITCH, flag word
with exactly bit 0 set. -/
theorem onInterrupt_rearm_when_flags_notified_witness :
    (readRegisterPairT INTFA
        (onInterrupt [⟨0, .SWITCH⟩] ⟨⟨0, 1, 0, 0, 0, 0, 0, 0⟩, [], fun _ => 0⟩)).1 = 0 ∧
    intLine (onInterrupt [⟨0, .SWITCH⟩] ⟨⟨0, 1, 0, 0, 0, 0, 0, 0⟩, [], fun _ => 0⟩).dev = false ∧
    (intfWord ⟨⟨0, 1, 0, 0, 0, 0, 0, 0⟩, [], fun _ => 0⟩ ≠ 0 →
      captureSingleReads
        (onInterrupt [⟨0, .SWITCH⟩] ⟨⟨0, 1, 0, 0, 0, 0, 0, 0⟩, [], fun _ => 0⟩).trace ≠ []) :=
  onInterrupt_rearm_when_flags_notified [⟨0, .SWITCH⟩] ⟨⟨0, 1, 0, 0, 0, 0, 0, 0⟩, [], fun _ => 0⟩
    (by decide) (by decide) rfl (by decide)

/-- C6: for a pin configured ROTENC_PHASE_B, `read()` on its handle returns
the interrupt-capture bit for that pin — the level latched at the most
recent interrupt event — and the returned value is unaffected by any change
of the live GPIO level after that event. -/
theorem rotencB_read_returns_captured (cfg : List MCP23S17PinConfig)
    (i a b fA fB a' b' : Nat) (s : St) (_hi : i < 16)
    (_ht : PinIdxToPinType i cfg = .ROTENC_PHASE_B) :
    (Pin.rotencBRead i (setLiveLevels a' b' (interruptEvent fA fB (setLiveLevels a b s)))).1
      = ((if i &&& 0b1000 ≠ 0 then a % 256 else b % 256) &&& getBitmask i != 0) ∧
    (Pin.rotencBRead i (setLiveLevels a' b' (interruptEvent fA fB (setLiveLevels a b s)))).1
      = (Pin.rotencBRead i (interruptEvent fA fB (setLiveLevels a b s))).1 := by
  unfold Pin.rotencBRead
  rw [readINTCAP_eq, readINTCAP_eq]
  constructor
  · unfold capAddr
    split <;>
      (unfold setLiveLevels interruptEvent regValue
       simp [INTFA, INTFB, INTCAPA, INTCAPB, GPIOA, GPIOB, OLATA, OLATB])
  · unfold capAddr
    split <;>
      (unfold setLiveLevels interruptEvent regValue
       simp [INTFA, INTFB, INTCAPA, INTCAPB, GPIOA, GPIOB, OLATA, OLATB])

/-- Witness for C6 at a concrete input: pin B2 ROTENC_PHASE_B; the level
latched at the interrupt event is kept even though the live level changes
afterwards. -/
theorem rotencB_read_returns_captured_witness :
    (Pin.rotencBRead 2 (setLiveLevels 9 0 (interruptEvent 0 2
        (setLiveLevels 5 4 ⟨⟨0, 0, 0, 0, 0, 0, 0, 0⟩, [], fun _ => 0⟩)))).1
      = ((if 2 &&& 0b1000 ≠ 0 then 5 % 256 else 4 % 256) &&& getBitmask 2 != 0) ∧
    (Pin.rotencBRead 2 (setLiveLevels 9 0 (interruptEvent 0 2
        (setLiveLevels 5 4 ⟨⟨0, 0, 0, 0, 0, 0, 0, 0⟩, [], fun _ => 0⟩)))).1
      = (Pin.rotencBRead 2 (interruptEvent 0 2
          (setLiveLevels 5 4 ⟨⟨0, 0, 0, 0, 0, 0, 0, 0⟩, [], fun _ => 0⟩))).1 :=
  rotencB_read_returns_captured [⟨2, .ROTENC_PHASE_B⟩] 2 5 4 0 2 9 0
    ⟨⟨0, 0, 0, 0, 0, 0, 0, 0⟩, [], fun _ => 0⟩ (by decide) (by decide)

/-! ## Read-modify-write of the output latch (C9) -/

lemma rmwByte_set (x k : Nat) (hx : x < 2 ^ 8) (hk : k < 8) :
    ((x ||| (1 <<< k)) % 256).testBit k = true ∧
    ∀ j, j ≠ k → ((x ||| (1 <<< k)) % 256).testBit j = x.testBit j := by
  rw [Nat.one_shiftLeft]
  have h2k : 2 ^ k < 2 ^ 8 := Nat.pow_lt_pow_right (by norm_num) hk
  have hor : x ||| 2 ^ k < 2 ^ 8 := Nat.or_lt_two_pow hx h2k
  have hmod : (x ||| 2 ^ k) % 256 = x ||| 2 ^ k := Nat.mod_eq_of_lt (by norm_num at hor ⊢; exact hor)
  rw [hmod]
  constructor
  · rw [Nat.testBit_or, Nat.testBit_two_pow_self, Bool.or_true]
  · intro j hj
    rw [Nat.testBit_or, Nat.testBit_two_pow_of_ne (Ne.symm hj), Bool.or_false]

lemma rmwByte_clear (x k : Nat) (hx : x < 2 ^ 8) (hk : k < 8) :
    ((x &&& (255 ^^^ (1 <<< k))) % 256).testBit k = false ∧
    ∀ j, j ≠ k → ((x &&& (255 ^^^ (1 <<< k))) % 256).testBit j = x.testBit j := by
  rw [Nat.one_shiftLeft]
  have h2k : 2 ^ k < 2 ^ 8 := Nat.pow_lt_pow_right (by norm_num) hk
  have hxor : (255 ^^^ 2 ^ k) < 2 ^ 8 := Nat.xor_lt_two_pow (by norm_num) h2k
  have hand : x &&& (255 ^^^ 2 ^ k) < 2 ^ 8 := Nat.and_lt_two_pow x hxor
  have hmod : (x &&& (255 ^^^ 2 ^ k)) % 256 = x &&& (255 ^^^ 2 ^ k) :=
    Nat.mod_eq_of_lt (by norm_num at hand ⊢; exact hand)
  rw [hmod]
  have h255 : ∀ m, (255 : Nat).testBit m = decide (m < 8) := by
    intro m
    have h8 : (255 : Nat) = 2 ^ 8 - 1 := by norm_num
    rw [h8, Nat.testBit_two_pow_sub_one]
  constructor
  · rw [Nat.testBit_and, Nat.testBit_xor, h255, Nat.testBit_two_pow_self]
    simp [hk]
  · intro j hj
    rw [Nat.testBit_and, Nat.testBit_xor, h255, Nat.testBit_two_pow_of_ne (Ne.symm hj)]
    by_cases hj8 : j < 8
    · simp [hj8]
    · have hfalse : x.testBit j = false :=
        Nat.testBit_lt_two_pow
          (lt_of_lt_of_le hx (Nat.pow_le_pow_right (by norm_num) (by omega)))
      simp [hj8, hfalse]

lemma writeOLAT_dev (i : Nat) (b : Bool) (s : St) :
    (writeOLAT i b s).dev =
      if i &&& 0b1000 ≠ 0 then
        { s.dev with olatA := (if b then s.dev.olatA ||| getBitmask i
                               else s.dev.olatA &&& (255 ^^^ getBitmask i)) % 256 }
      else
        { s.dev with olatB := (if b then s.dev.olatB ||| getBitmask i
                               else s.dev.olatB &&& (255 ^^^ getBitmask i)) % 256 } := by
  unfold writeOLAT readRegisterT writeRegisterT regValue regWriteEffect readSideEffect
  split <;> cases b <;>
    simp [INTFA, INTFB, INTCAPA, INTCAPB, GPIOA, GPIOB, OLATA, OLATB]

/-- C9 (register level): the `writeOLATA`/`writeOLAT` read-modify-write of
the output-latch register sets the pin's own latch bit to the written value
and leaves every other latch bit, the other port's latch register, and all
other modelled registers unchanged. -/
theorem writeOLAT_frame (i : Nat) (b : Bool) (s : St) (_hi : i < 16)
    (hA : s.dev.olatA < 256) (hB : s.dev.olatB < 256) :
    ((if i &&& 0b1000 ≠ 0 then (writeOLAT i b s).dev.olatA
      else (writeOLAT i b s).dev.olatB).testBit (i &&& 0b111) = b) ∧
    (∀ j, j ≠ i &&& 0b111 →
      (if i &&& 0b1000 ≠ 0 then (writeOLAT i b s).dev.olatA
       else (writeOLAT i b s).dev.olatB).testBit j
        = (if i &&& 0b1000 ≠ 0 then s.dev.olatA else s.dev.olatB).testBit j) ∧
    (if i &&& 0b1000 ≠ 0 then (writeOLAT i b s).dev.olatB = s.dev.olatB
     else (writeOLAT i b s).dev.olatA = s.dev.olatA) ∧
    (writeOLAT i b s).dev.intfA = s.dev.intfA ∧
    (writeOLAT i b s).dev.intfB = s.dev.intfB ∧
    (writeOLAT i b s).dev.intcapA = s.dev.intcapA ∧
    (writeOLAT i b s).dev.intcapB = s.dev.intcapB ∧
    (writeOLAT i b s).dev.gpioA = s.dev.gpioA ∧
    (writeOLAT i b s).dev.gpioB = s.dev.gpioB := by
  have hk : i &&& 0b111 < 8 := lt_of_le_of_lt Nat.and_le_right (by norm_num)
  have hmask : getBitmask i = 1 <<< (i &&& 0b111) := rfl
  rw [writeOLAT_dev, hmask]
  split <;> cases b
  · obtain ⟨hset, hother⟩ := rmwByte_clear s.dev.olatA (i &&& 0b111) (by norm_num; exact hA) hk
    exact ⟨hset, fun j hj => hother j hj, rfl, rfl, rfl, rfl, rfl, rfl, rfl⟩
  · obtain ⟨hset, hother⟩ := rmwByte_set s.dev.olatA (i &&& 0b111) (by norm_num; exact hA) hk
    exact ⟨hset, fun j hj => hother j hj, rfl, rfl, rfl, rfl, rfl, rfl, rfl⟩
  · obtain ⟨hset, hother⟩ := rmwByte_clear s.dev.olatB (i &&& 0b111) (by norm_num; exact hB) hk
    exact ⟨hset, fun j hj => hother j hj, rfl, rfl, rfl, rfl, rfl, rfl, rfl⟩
  · obtain ⟨hset, hother⟩ := rmwByte_set s.dev.olatB (i &&& 0b111) (by norm_num; exact hB) hk
    exact ⟨hset, fun j hj => hother j hj, rfl, rfl, rfl, rfl, rfl, rfl, rfl⟩

/-- Witness for the C9 register-level frame property at a concrete input:
pin A0 (index 8), writing true into latch byte 0x55. -/
theorem writeOLAT_frame_witness :
    ((if 8 &&& 0b1000 ≠ 0 then (writeOLAT 8 true ⟨⟨0, 0, 0, 0, 0, 0, 0x54, 0x33⟩, [], fun _ => 0⟩).dev.olatA
      else (writeOLAT 8 true ⟨⟨0, 0, 0, 0, 0, 0, 0x54, 0x33⟩, [], fun _ => 0⟩).dev.olatB).testBit (8 &&& 0b111) = true) ∧
    (∀ j, j ≠ 8 &&& 0b111 →
      (if 8 &&& 0b1000 ≠ 0 then (writeOLAT 8 true ⟨⟨0, 0, 0, 0, 0, 0, 0x54, 0x33⟩, [], fun _ => 0⟩).dev.olatA
       else (writeOLAT 8 true ⟨⟨0, 0, 0, 0, 0, 0, 0x54, 0x33⟩, [], fun _ => 0⟩).dev.olatB).testBit j
        = (if 8 &&& 0b1000 ≠ 0 then (0x54 : Nat) else (0x33 : Nat)).testBit j) ∧
    (if 8 &&& 0b1000 ≠ 0 then (writeOLAT 8 true ⟨⟨0, 0, 0, 0, 0, 0, 0x54, 0x33⟩, [], fun _ => 0⟩).dev.olatB = 0x33
     else (writeOLAT 8 true ⟨⟨0, 0, 0, 0, 0, 0, 0x54, 0x33⟩, [], fun _ => 0⟩).dev.olatA = 0x54) ∧
    (writeOLAT 8 true ⟨⟨0, 0, 0, 0, 0, 0, 0x54, 0x33⟩, [], fun _ => 0⟩).dev.intfA = 0 ∧
    (writeOLAT 8 true ⟨⟨0, 0, 0, 0, 0, 0, 0x54, 0x33⟩, [], fun _ => 0⟩).dev.intfB = 0 ∧
    (writeOLAT 8 true ⟨⟨0, 0, 0, 0, 0, 0, 0x54, 0x33⟩, [], fun _ => 0⟩).dev.intcapA = 0 ∧
    (writeOLAT 8 true ⟨⟨0, 0, 0, 0, 0, 0, 0x54, 0x33⟩, [], fun _ => 0⟩).dev.intcapB = 0 ∧
    (writeOLAT 8 true ⟨⟨0, 0, 0, 0, 0, 0, 0x54, 0x33⟩, [], fun _ => 0⟩).dev.gpioA = 0 ∧
    (writeOLAT 8 true ⟨⟨0, 0, 0, 0, 0, 0, 0x54, 0x33⟩, [], fun _ => 0⟩).dev.gpioB = 0 :=
  writeOLAT_frame 8 true ⟨⟨0, 0, 0, 0, 0, 0, 0x54, 0x33⟩, [], fun _ => 0⟩
    (by decide) (by decide) (by decide)

/-- C10: `registerCallback` on pin `p` replaces only `p`'s stored callback
slot; every other pin's slot is untouched, and the `notify()` dispatch
behaviour (device effect and emitted events) of every pin `q ≠ p` is
unchanged, because each interrupt-capable pin instantiation owns its own
static callback slot. -/
theorem registerCallback_frame (p q cb : Nat) (tp tq : MCP23xxxPinType) (s : St)
    (_hp : isSwitchOrPhaseA tp = true) (_hq : isSwitchOrPhaseA tq = true)
    (hpq : p ≠ q) :
    (Pin.registerCallback p cb s).cbs p = cb ∧
    (∀ r, r ≠ p → (Pin.registerCallback p cb s).cbs r = s.cbs r) ∧
    (Pin.notify tq q (Pin.registerCallback p cb s)).dev = (Pin.notify tq q s).dev ∧
    (Pin.notify tq q (Pin.registerCallback p cb s)).trace = (Pin.notify tq q s).trace := by
  refine ⟨?_, ?_, ?_, ?_⟩
  · simp [Pin.registerCallback]
  · intro r hr
    simp [Pin.registerCallback, hr]
  · rw [notify_dev_eq, notify_dev_eq]
    rfl
  · rw [notify_trace_eq, notify_trace_eq]
    have h3 : (Pin.registerCallback p cb s).cbs q = s.cbs q := by
      simp [Pin.registerCallback, Ne.symm hpq]
    have h1 : (Pin.registerCallback p cb s).trace = s.trace := rfl
    have h2 : (Pin.registerCallback p cb s).dev = s.dev := rfl
    rw [h1, h2, h3]

/-- Witness for C10 at a concrete input: registering callback 7 on pin B0
leaves pin B1's slot and dispatch unchanged. -/
theorem registerCallback_frame_witness :
    (Pin.registerCallback 0 7 ⟨⟨0, 3, 0, 2, 0, 0, 0, 0⟩, [], fun _ => 5⟩).cbs 0 = 7 ∧
    (∀ r, r ≠ 0 → (Pin.registerCallback 0 7 ⟨⟨0, 3, 0, 2, 0, 0, 0, 0⟩, [], fun _ => 5⟩).cbs r
        = (fun _ => (5 : Nat)) r) ∧
    (Pin.notify .SWITCH 1 (Pin.registerCallback 0 7 ⟨⟨0, 3, 0, 2, 0, 0, 0, 0⟩, [], fun _ => 5⟩)).dev
      = (Pin.notify .SWITCH 1 ⟨⟨0, 3, 0, 2, 0, 0, 0, 0⟩, [], fun _ => 5⟩).dev ∧
    (Pin.notify .SWITCH 1 (Pin.registerCallback 0 7 ⟨⟨0, 3, 0, 2, 0, 0, 0, 0⟩, [], fun _ => 5⟩)).trace
      = (Pin.notify .SWITCH 1 ⟨⟨0, 3, 0, 2, 0, 0, 0, 0⟩, [], fun _ => 5⟩).trace :=
  registerCallback_frame 0 1 7 .SWITCH .SWITCH ⟨⟨0, 3, 0, 2, 0, 0, 0, 0⟩, [], fun _ => 5⟩
    (by decide) (by decide) (by decide)

/-! ## Register-pair round trip against a simulated register file (C8) -/

/-- Point update of a simulated register file. -/
def updateRF (rf : Nat → Nat) (addr v : Nat) : Nat → Nat :=
  fun x => if x = addr then v else rf x

/-- The byte sequence `writeRegisterPair` sends inside one chip-select frame:
opcode, register address, MSB (`value >> 8`) first, LSB (`value`, truncated
by the `uint8_t` parameter of `put`) second. -/
def writeRegisterPairFrame (addr v : Nat) : List Nat :=
  [OPCODE_WRITE, addr % 256, (v >>> 8) % 256, v % 256]

/-- Effect of the `writeRegisterPair` transaction on a simulated register
file: the first transferred data byte lands in register `addr`, the second
in the adjacent register `addr + 1` (the device's BANK=0 address-pointer
toggling within the A/B pair). -/
def writeRegisterPairRF (rf : Nat → Nat) (addr v : Nat) : Nat → Nat :=
  updateRF (updateRF rf addr ((v >>> 8) % 256)) (addr + 1) (v % 256)

/-- Result of the `readRegisterPair` transaction against a simulated register
file: `valueA` (MSB) is read from `addr` first, `valueB` (LSB) from the
adjacent register second; the result is `(valueA << 8) + valueB`. -/
def readRegisterPairRF (rf : Nat → Nat) (addr : Nat) : Nat :=
  ((rf addr) <<< 8) + rf (addr + 1)

/-- C8: for every 16-bit value, a register-pair write followed by a
register-pair read of the same address against the same simulated register
file returns exactly the written value, and the transferred frame carries
the high byte (port A) first and the low byte (port B) second. -/
theorem registerPair_roundTrip (rf : Nat → Nat) (addr v : Nat) (hv : v < 65536) :
    readRegisterPairRF (writeRegisterPairRF rf addr v) addr = v ∧
    writeRegisterPairFrame addr v = [OPCODE_WRITE, addr % 256, v / 256, v % 256] := by
  constructor
  · unfold readRegisterPairRF writeRegisterPairRF updateRF
    rw [if_neg (by omega), if_pos rfl, if_pos rfl]
    rw [Nat.shiftRight_eq_div_pow, Nat.shiftLeft_eq]
    norm_num
    omega
  · unfold writeRegisterPairFrame
    rw [Nat.shiftRight_eq_div_pow]
    norm_num
    omega

/-- Witness for C8 at a concrete input: value 0xABCD written to the IODIR
pair of an all-zero register file. -/
theorem registerPair_roundTrip_witness :
    readRegisterPairRF (writeRegisterPairRF (fun _ => 0) IODIRA 0xABCD) IODIRA = 0xABCD ∧
    writeRegisterPairFrame IODIRA 0xABCD
      = [OPCODE_WRITE, IODIRA % 256, 0xABCD / 256, 0xABCD % 256] :=
  registerPair_roundTrip (fun _ => 0) IODIRA 0xABCD (by decide)
